import Mathlib

/-!
Verification development for the rendering-execution engine of the
ADK-Chart-Master repository.

The embedding models, over `List Char` for Python strings and explicit
environment records for external effects:

* `BaseRenderTool.run_async` (src/chart_coordinator_project/tools/base_render_tool.py),
  including its validation short-circuits, the `_render_async` timeout wrapper,
  `_save_rendered_artifact` and `_handle_render_error`;
* `MermaidRenderTool._render_sync` and `_preprocess_mermaid_code`
  (src/chart_coordinator_project/tools/mermaid_render_tool.py);
* `GraphvizRenderTool._render_sync`, `_preprocess_dot_code` and
  `_validate_dot_syntax` (src/chart_coordinator_project/tools/graphviz_render_tool.py).

External effects (subprocess runs, the artifact store, the local filesystem,
wall-clock time) are passed in explicitly; machine behaviour of the Python
string operations (str.strip, str.split, str.startswith, re.sub scanning) is
reproduced faithfully on `List Char`.
-/

/-- Python `str.strip()` / `\s` whitespace on the ASCII range. -/
def isWS (c : Char) : Bool :=
  c = ' ' || c = '\t' || c = '\n' || c = '\r' || c = '\x0b' || c = '\x0c'

/-- Python `s.strip()`: drop whitespace from both ends. -/
def pyStrip (l : List Char) : List Char :=
  List.rdropWhile isWS (l.dropWhile isWS)

/-- Python `s.split('\n')`. -/
def splitLines : List Char → List (List Char)
  | [] => [[]]
  | c :: cs =>
    if c = '\n' then [] :: splitLines cs
    else
      match splitLines cs with
      | [] => [[c]]
      | l :: ls => (c :: l) :: ls

/-- Python `'\n'.join(ls)`. -/
def joinLines : List (List Char) → List Char
  | [] => []
  | [l] => l
  | l :: l' :: ls => l ++ '\n' :: joinLines (l' :: ls)

/-- The three-backtick fence marker. -/
def fence3 : List Char := "```".toList

/-- The mermaid-specific opening fence. -/
def fenceMermaid : List Char := "```mermaid".toList

/-- The HTML comment opener dropped by the mermaid preprocessor. -/
def commentOpen : List Char := "<!--".toList

/-- Fence removal step of `MermaidRenderTool._preprocess_mermaid_code`
(mermaid_render_tool.py lines 294-299): strip a leading
triple-backtick fence (10 chars for the mermaid fence, otherwise 3) and a
trailing triple-backtick fence. -/
def stripFence (s : List Char) : List Char :=
  let s1 :=
    if fenceMermaid.isPrefixOf s then s.drop 10
    else if fence3.isPrefixOf s then s.drop 3
    else s
  if fence3.isSuffixOf s1 then s1.take (s1.length - 3) else s1

/-- One line of the mermaid clean-up loop: keep the stripped line when it is
non-empty and is not an HTML comment opener. -/
def cleanLine (l : List Char) : Option (List Char) :=
  let t := pyStrip l
  if t = [] then none
  else if commentOpen.isPrefixOf t then none
  else some t

/-- Line clean-up loop of `_preprocess_mermaid_code` (lines 302-308). -/
def mermaidClean (s : List Char) : List Char :=
  joinLines ((splitLines s).filterMap cleanLine)

/-- `MermaidRenderTool._preprocess_mermaid_code`: strip, remove fences, clean
lines. -/
def preprocessMermaid (code : List Char) : List Char :=
  mermaidClean (stripFence (pyStrip code))

/-- Case-insensitive literal prefix matching (ASCII), as used by the
`re.IGNORECASE` patterns of the graphviz preprocessor. Returns the remainder
after the pattern on success. -/
def stripCI : List Char → List Char → Option (List Char)
  | [], s => some s
  | _ :: _, [] => none
  | p :: ps, c :: cs => if p.toLower = c.toLower then stripCI ps cs else none

/-- Letters of the `fontname` attribute key. -/
def fontnameChars : List Char := "fontname".toList

/-- Scan a quoted value: consume characters up to the closing quote `q`.
`.` in the Python patterns does not match a newline, so a newline aborts. -/
def scanQuoted (q : Char) : List Char → Option (List Char)
  | [] => none
  | c :: cs => if c = q then some cs else if c = '\n' then none else scanQuoted q cs

theorem scanQuoted_length {q : Char} {s r : List Char} (h : scanQuoted q s = some r) :
    r.length < s.length := by
  induction s with
  | nil => simp [scanQuoted] at h
  | cons c cs ih =>
    simp only [scanQuoted] at h
    split at h
    · cases h; simp
    · split at h
      · cases h
      · exact Nat.lt_trans (ih h) (by simp)

theorem stripCI_length {p s r : List Char} (h : stripCI p s = some r) :
    r.length + p.length = s.length := by
  induction p generalizing s with
  | nil => cases h; simp
  | cons a ps ih =>
    cases s with
    | nil => simp [stripCI] at h
    | cons c cs =>
      simp only [stripCI] at h
      split at h
      · have := ih h
        simp [List.length_cons]; omega
      · cases h

/-- Try to match `fontname\s*=\s*<q>.*?<q>` at the head of `s` (the two
`re.sub` patterns of `_preprocess_dot_code`, lines 271-272); on success
return the remainder after the match. -/
def tryFont (q : Char) (s : List Char) : Option (List Char) :=
  match stripCI fontnameChars s with
  | none => none
  | some s1 =>
    match s1.dropWhile isWS with
    | [] => none
    | d :: s3 =>
      if d = '=' then
        match s3.dropWhile isWS with
        | [] => none
        | c :: s5 => if c = q then scanQuoted q s5 else none
      else none

theorem length_dropWhile_le' (p : Char → Bool) (l : List Char) :
    (l.dropWhile p).length ≤ l.length := by
  induction l with
  | nil => simp
  | cons c cs ih =>
    simp only [List.dropWhile]
    split
    · exact Nat.le_trans ih (by simp)
    · simp

theorem tryFont_length {q : Char} {s r : List Char} (h : tryFont q s = some r) :
    r.length < s.length := by
  unfold tryFont at h
  cases h1 : stripCI fontnameChars s with
  | none => rw [h1] at h; cases h
  | some s1 =>
    rw [h1] at h
    dsimp only at h
    have hs1 : s1.length + 8 = s.length := stripCI_length h1
    cases h2 : s1.dropWhile isWS with
    | nil => rw [h2] at h; cases h
    | cons d s3 =>
      rw [h2] at h
      have hd2 : s3.length < s1.length + 1 := by
        have := length_dropWhile_le' isWS s1
        rw [h2] at this
        simp at this; omega
      dsimp only at h
      split at h
      · cases h3 : s3.dropWhile isWS with
        | nil => rw [h3] at h; cases h
        | cons c s5 =>
          rw [h3] at h
          have hd3 : s5.length < s3.length + 1 := by
            have := length_dropWhile_le' isWS s3
            rw [h3] at this
            simp at this; omega
          dsimp only at h
          split at h
          · have := scanQuoted_length h
            omega
          · cases h
      · cases h

/-- Fuel-indexed left-to-right scanner for `removeFont`; the fuel only makes
the recursion structural (each successful match consumes at least one
character, so fuel equal to the string length never runs out). -/
def removeFontAux (q : Char) : Nat → List Char → List Char
  | _, [] => []
  | 0, c :: cs => c :: cs
  | fuel + 1, c :: cs =>
    match tryFont q (c :: cs) with
    | some rest => removeFontAux q fuel rest
    | none => c :: removeFontAux q fuel cs

/-- Left-to-right non-overlapping removal of all `fontname\s*=\s*<q>...<q>`
matches, as performed by `re.sub(pattern, '', code)` in
`_preprocess_dot_code`. -/
def removeFont (q : Char) (s : List Char) : List Char :=
  removeFontAux q s.length s

theorem removeFontAux_nil (q : Char) (fuel : Nat) : removeFontAux q fuel [] = [] := by
  cases fuel <;> rfl

theorem removeFontAux_congr {q : Char} (f1 : Nat) :
    ∀ {s : List Char} (f2 : Nat), s.length ≤ f1 → s.length ≤ f2 →
      removeFontAux q f1 s = removeFontAux q f2 s := by
  induction f1 with
  | zero =>
    intro s f2 h1 _
    have hs : s = [] := List.length_eq_zero.mp (Nat.le_zero.mp h1)
    subst hs
    rw [removeFontAux_nil, removeFontAux_nil]
  | succ f ih =>
    intro s f2 h1 h2
    cases s with
    | nil => rw [removeFontAux_nil, removeFontAux_nil]
    | cons c cs =>
      cases f2 with
      | zero => simp at h2
      | succ f2' =>
        simp only [removeFontAux]
        simp only [List.length_cons] at h1 h2
        cases htf : tryFont q (c :: cs) with
        | some rest =>
          have hlen := tryFont_length htf
          simp only [List.length_cons] at hlen
          exact ih f2' (by omega) (by omega)
        | none =>
          exact congrArg (c :: ·) (ih f2' (by omega) (by omega))

theorem removeFont_cons (q c : Char) (cs : List Char) :
    removeFont q (c :: cs)
      = match tryFont q (c :: cs) with
        | some rest => removeFont q rest
        | none => c :: removeFont q cs := by
  unfold removeFont
  simp only [List.length_cons, removeFontAux]
  cases htf : tryFont q (c :: cs) with
  | some rest =>
    have hlen := tryFont_length htf
    simp only [List.length_cons] at hlen
    exact removeFontAux_congr cs.length rest.length (by omega) (by omega)
  | none => rfl

/-- Both fontname-removal passes of `_preprocess_dot_code` (double-quoted
then single-quoted pattern, lines 271-272). -/
def removeFontnames (s : List Char) : List Char :=
  removeFont '\x27' (removeFont '"' s)

/-- Try to match `\s*<t>` at the head of `s`; on success return the
remainder. Used by the comma clean-up patterns. -/
def tryWsThen (t : Char) : List Char → Option (List Char)
  | [] => none
  | c :: cs => if c = t then some cs else if isWS c then tryWsThen t cs else none

theorem tryWsThen_length {t : Char} {s r : List Char} (h : tryWsThen t s = some r) :
    r.length < s.length := by
  induction s with
  | nil => simp [tryWsThen] at h
  | cons c cs ih =>
    simp only [tryWsThen] at h
    split at h
    · cases h; simp
    · split at h
      · exact Nat.lt_trans (ih h) (by simp)
      · cases h

/-- Fuel-indexed scanner replacing each `<lead>\s*<target>` match by the
single character `rep`, continuing after the match as `re.sub` does. Fuel
equal to the string length never runs out, since a match consumes at least
two characters. -/
def subPairAux (lead rep target : Char) : Nat → List Char → List Char
  | _, [] => []
  | 0, c :: cs => c :: cs
  | fuel + 1, c :: cs =>
    if c = lead then
      match tryWsThen target cs with
      | some rest => rep :: subPairAux lead rep target fuel rest
      | none => c :: subPairAux lead rep target fuel cs
    else c :: subPairAux lead rep target fuel cs

theorem subPairAux_nil (lead rep target : Char) (fuel : Nat) :
    subPairAux lead rep target fuel [] = [] := by
  cases fuel <;> rfl

theorem subPairAux_congr {lead rep target : Char} (f1 : Nat) :
    ∀ {s : List Char} (f2 : Nat), s.length ≤ f1 → s.length ≤ f2 →
      subPairAux lead rep target f1 s = subPairAux lead rep target f2 s := by
  induction f1 with
  | zero =>
    intro s f2 h1 _
    have hs : s = [] := List.length_eq_zero.mp (Nat.le_zero.mp h1)
    subst hs
    rw [subPairAux_nil, subPairAux_nil]
  | succ f ih =>
    intro s f2 h1 h2
    cases s with
    | nil => rw [subPairAux_nil, subPairAux_nil]
    | cons c cs =>
      cases f2 with
      | zero => simp at h2
      | succ f2' =>
        simp only [subPairAux]
        simp only [List.length_cons] at h1 h2
        by_cases hc : c = lead
        · rw [if_pos hc, if_pos hc]
          cases htf : tryWsThen target cs with
          | some rest =>
            have hlen := tryWsThen_length htf
            exact congrArg (rep :: ·) (ih f2' (by omega) (by omega))
          | none =>
            exact congrArg (c :: ·) (ih f2' (by omega) (by omega))
        · rw [if_neg hc, if_neg hc]
          exact congrArg (c :: ·) (ih f2' (by omega) (by omega))

/-- `re.sub(r'\[\s*,', '[', code)` (line 274). -/
def subOpenComma (s : List Char) : List Char :=
  subPairAux '[' '[' ',' s.length s

/-- `re.sub(r',\s*,', ',', code)` (line 275). -/
def subCommaComma (s : List Char) : List Char :=
  subPairAux ',' ',' ',' s.length s

/-- `re.sub(r',\s*\]', ']', code)` (line 276). -/
def subCommaClose (s : List Char) : List Char :=
  subPairAux ',' ']' ']' s.length s

theorem subPair_cons_ne {lead rep target c : Char} {cs : List Char} (hc : c ≠ lead) :
    subPairAux lead rep target (c :: cs).length (c :: cs)
      = c :: subPairAux lead rep target cs.length cs := by
  simp only [List.length_cons, subPairAux]
  rw [if_neg hc]

/-- The three comma clean-up passes in source order. -/
def cleanupCommas (s : List Char) : List Char :=
  subCommaClose (subCommaComma (subOpenComma s))

/-- Letters of the keywords of the top-level declaration pattern. -/
def graphChars : List Char := "graph".toList

def digraphChars : List Char := "digraph".toList

def strictChars : List Char := "strict".toList

/-- Whether `graph` or `digraph` matches (case-insensitively) at the head. -/
def declHead (s : List Char) : Bool :=
  (stripCI graphChars s).isSome || (stripCI digraphChars s).isSome

/-- `re.match(r'^\s*(strict\s+)?(graph|digraph)', code, re.IGNORECASE)`
(line 264): optional leading whitespace, an optional `strict` followed by at
least one whitespace character, then `graph` or `digraph`. -/
def hasDecl (s : List Char) : Bool :=
  let t := s.dropWhile isWS
  declHead t ||
    (match stripCI strictChars t with
     | some (c :: cs) => isWS c && declHead (List.dropWhile isWS (c :: cs))
     | _ => false)

/-- The `->` edge operator searched for by `'->' in code`. -/
def arrowChars : List Char := "->".toList

/-- Python substring containment `p in s`. -/
def containsSeq (p : List Char) : List Char → Bool
  | [] => p.isEmpty
  | c :: cs => p.isPrefixOf (c :: cs) || containsSeq p cs

def hasArrow (s : List Char) : Bool := containsSeq arrowChars s

def dwrapL : List Char := "digraph G \x7b\n".toList

def gwrapL : List Char := "graph G \x7b\n".toList

def wrapR : List Char := "\n\x7d".toList

/-- Auto-wrap step of `_preprocess_dot_code` (lines 264-268): code lacking a
top-level declaration is wrapped in `digraph G { ... }` when it contains
`->`, else in `graph G { ... }`. -/
def wrapDot (s : List Char) : List Char :=
  if hasArrow s then dwrapL ++ s ++ wrapR else gwrapL ++ s ++ wrapR

/-- The host platforms distinguished by `platform.system()`. -/
inductive Platform
  | windows
  | darwin
  | linux
deriving DecidableEq

/-- Font selection of `_preprocess_dot_code` (lines 279-288). -/
def fontName : Platform → String
  | .windows => "Microsoft YaHei"
  | .darwin => "PingFang SC"
  | .linux => "WenQuanYi Micro Hei"

/-- The injected global font block (lines 293-298), with the platform font
substituted. -/
def fontAttrs (p : Platform) : List Char :=
  ("\n    // Injected by ADK to support Chinese characters\n    graph [fontname=\""
    ++ fontName p
    ++ "\"];\n    node [fontname=\""
    ++ fontName p
    ++ "\"];\n    edge [fontname=\""
    ++ fontName p
    ++ "\"];\n").toList

/-- Insert `fa` right after the first opening brace, if any; otherwise return
the code unchanged (lines 300-311). -/
def injectAt (fa : List Char) : List Char → List Char
  | [] => []
  | c :: cs => if c = '\x7b' then c :: (fa ++ cs) else c :: injectAt fa cs

/-- `_preprocess_dot_code` up to, but excluding, the font injection:
strip, auto-wrap, remove quoted fontname attributes, comma clean-up. -/
def dotBeforeInject (code : List Char) : List Char :=
  let c := pyStrip code
  let c1 := if hasDecl c then c else wrapDot c
  cleanupCommas (removeFontnames c1)

/-- `GraphvizRenderTool._preprocess_dot_code`. -/
def preprocessDot (p : Platform) (code : List Char) : List Char :=
  injectAt (fontAttrs p) (dotBeforeInject code)

/-- Result dictionary shape shared by the `_render_sync` implementations and
`_render_async`: `success` plus `data` bytes on success, `error` (and
optionally `suggestion`) on failure. Bytes are modelled as `List Nat`. -/
structure RenderOutcome where
  success : Bool
  data : List Nat := []
  error : Option String := none
  suggestion : Option String := none
deriving DecidableEq

def msgMmdcUnavailable : String := "mermaid-cli未安装或不可用"

def msgMmdcSuggestion : String := "请先安装mermaid-cli: npm install -g @mermaid-js/mermaid-cli"

def msgMermaidCliFail : String := "mermaid-cli渲染失败:\n"

def msgMermaidNoOutput : String := "渲染完成但未生成输出文件"

def msgMermaidEmptyImage : String := "生成的图片文件为空"

def msgMermaidTimeout : String := "渲染超时（30秒），请检查图表代码复杂度"

def msgMermaidExc : String := "渲染过程异常: "

/-- Outcome of the `subprocess.run` call on the mermaid CLI: it either times
out, raises, or completes with a return code and captured stderr. -/
inductive MmdcRun
  | timedOut
  | raised (msg : String)
  | completed (rc : Int) (stderr : String)
deriving DecidableEq

/-- The external world as observed by one `MermaidRenderTool._render_sync`
call: the subprocess outcome and the state of the output file afterwards. -/
structure MermaidEnv where
  run : MmdcRun
  outputExists : Bool
  outputBytes : List Nat
deriving DecidableEq

/-- `_render_sync` together with the instrumentation fact of whether the
external mermaid subprocess was launched. -/
structure MermaidStep where
  outcome : RenderOutcome
  subprocessInvoked : Bool
deriving DecidableEq

/-- `MermaidRenderTool._render_sync` (mermaid_render_tool.py lines 188-288):
fail fast on a missing CLI, otherwise preprocess the code, run the CLI in a
temporary directory and translate the subprocess outcome. -/
def mermaidRenderSyncFull (mmdcAvailable : Bool) (env : MermaidEnv)
    (code : List Char) (_fmt : String) (_w _h : Nat) : MermaidStep :=
  if ¬ mmdcAvailable then
    ⟨{ success := false, error := some msgMmdcUnavailable,
       suggestion := some msgMmdcSuggestion }, false⟩
  else
    let _processed := preprocessMermaid code
    match env.run with
    | .timedOut => ⟨{ success := false, error := some msgMermaidTimeout }, true⟩
    | .raised e => ⟨{ success := false, error := some (msgMermaidExc ++ e) }, true⟩
    | .completed rc stderr =>
      if rc ≠ 0 then
        ⟨{ success := false, error := some (msgMermaidCliFail ++ stderr) }, true⟩
      else if ¬ env.outputExists then
        ⟨{ success := false, error := some msgMermaidNoOutput }, true⟩
      else if env.outputBytes = [] then
        ⟨{ success := false, error := some msgMermaidEmptyImage }, true⟩
      else
        ⟨{ success := true, data := env.outputBytes }, true⟩

def mermaidRenderSync (mmdcAvailable : Bool) (env : MermaidEnv)
    (code : List Char) (fmt : String) (w h : Nat) : RenderOutcome :=
  (mermaidRenderSyncFull mmdcAvailable env code fmt w h).outcome

def msgDotInvalid : String := "DOT语法错误: "

def msgGvUnavailable : String :=
  "Graphviz不可用。请安装：pip install graphviz 或安装Graphviz软件包"

def msgGvCliFail : String := "Graphviz渲染失败: "

def msgGvNoOutput : String := "输出文件未生成"

def msgGvExeMissing : String := "找不到Graphviz可执行文件"

def msgDotEmpty : String := "代码为空"

def msgDotNoKeyword : String := "代码必须以digraph、graph或strict开头"

def msgDotBraceMismatch : String := "大括号不匹配"

def msgDotBraceMissing : String := "缺少大括号"

/-- Result of `GraphvizRenderTool._validate_dot_syntax`. -/
structure DotValidation where
  valid : Bool
  error : String := ""
deriving DecidableEq

/-- `GraphvizRenderTool._validate_dot_syntax` (graphviz_render_tool.py lines
313-336): non-empty, starts with a keyword (case-sensitively), balanced and
present braces. -/
def validateDot (code : List Char) : DotValidation :=
  if pyStrip code = [] then ⟨false, msgDotEmpty⟩
  else if ¬ (digraphChars.isPrefixOf code || graphChars.isPrefixOf code
      || strictChars.isPrefixOf code) then ⟨false, msgDotNoKeyword⟩
  else if code.count '\x7b' ≠ code.count '\x7d' then ⟨false, msgDotBraceMismatch⟩
  else if code.count '\x7b' = 0 then ⟨false, msgDotBraceMissing⟩
  else ⟨true, ""⟩

/-- The external world as observed by one `GraphvizRenderTool._render_sync`
call: availability flags probed at construction, and the outcomes of the
python-library render and of the command-line render. `pyOutcome` abstracts
`graphviz.Source(...).render()` (bytes read back, or the formatted exception
message); `cliRun` abstracts `subprocess.run` on the dot executable. -/
structure GraphvizEnv where
  platform : Platform
  pythonLibAvailable : Bool
  cliAvailable : Bool
  pyOutcome : Except String (List Nat)
  cliExeFound : Bool
  cliRun : Except String (Int × String)
  cliOutputExists : Bool
  cliOutputBytes : List Nat

/-- `GraphvizRenderTool._render_with_python_lib` (lines 366-407). -/
def gvRenderWithPythonLib (env : GraphvizEnv) : RenderOutcome :=
  match env.pyOutcome with
  | .ok d => { success := true, data := d }
  | .error e => { success := false, error := some e }

/-- `GraphvizRenderTool._render_with_command_line` (lines 409-502). Note:
the bytes of the output file are returned without any emptiness check. -/
def gvRenderWithCommandLine (env : GraphvizEnv) : RenderOutcome :=
  if ¬ env.cliExeFound then { success := false, error := some msgGvExeMissing }
  else
    match env.cliRun with
    | .error e => { success := false, error := some e }
    | .ok (rc, stderr) =>
      if rc ≠ 0 then { success := false, error := some (msgGvCliFail ++ stderr) }
      else if ¬ env.cliOutputExists then { success := false, error := some msgGvNoOutput }
      else { success := true, data := env.cliOutputBytes }

/-- `GraphvizRenderTool._render_sync` (lines 203-252): preprocess, validate,
try the python library, fall back to the command line. -/
def graphvizRenderSync (env : GraphvizEnv) (code : List Char)
    (_fmt : String) (_w _h : Nat) : RenderOutcome :=
  let processed := preprocessDot env.platform code
  let v := validateDot processed
  if ¬ v.valid then { success := false, error := some (msgDotInvalid ++ v.error) }
  else if env.pythonLibAvailable ∧ (gvRenderWithPythonLib env).success then
    gvRenderWithPythonLib env
  else if env.cliAvailable then gvRenderWithCommandLine env
  else { success := false, error := some msgGvUnavailable }

def msgRenderTimeout : String :=
  "渲染超时（超过2分钟），可能原因：代码过于复杂、依赖未正确安装、或系统资源不足"

def msgRenderTimeoutSuggestion : String := "请尝试简化代码或检查依赖安装"

/-- The result `BaseRenderTool._render_async` produces when
`asyncio.wait_for` expires (base_render_tool.py lines 377-384). -/
def renderAsyncTimeoutOutcome : RenderOutcome :=
  { success := false, error := some msgRenderTimeout,
    suggestion := some msgRenderTimeoutSuggestion }

/-- `BaseRenderTool._render_async` (lines 330-392): the synchronous render is
dispatched on the tool's executor under a 120-second `asyncio.wait_for`.
`duration` is the wall-clock time the synchronous work takes. The second
component records whether the sandbox terminated (or saw complete) the
dispatched work unit: the `except asyncio.TimeoutError` branch only
constructs the error dictionary — it performs no cancellation or kill of the
executor thread or any subprocess below it — so on the timeout path this is
`false` (the future is merely abandoned). -/
def renderAsync (syncOutcome : RenderOutcome) (duration : Nat) : RenderOutcome × Bool :=
  if duration > 120 then (renderAsyncTimeoutOutcome, false) else (syncOutcome, true)

/-- Version reference carried by a save result: the artifact store's version
on the `tool_context` path, the literal `"local"` marker on the filesystem
path. -/
inductive ArtifactVersion
  | store (v : Nat)
  | localFile
deriving DecidableEq

/-- Persistence environment of `_save_rendered_artifact`: either a live
`tool_context` (with the outcome of `save_artifact`) or none (with the
outcome of the local file write). -/
inductive PersistEnv
  | withCtx (saveOutcome : Except String Nat)
  | noCtx (writeOutcome : Except String Unit)

/-- Result dictionary of `_save_rendered_artifact`. -/
structure SaveResult where
  success : Bool
  filename : Option String := none
  version : Option ArtifactVersion := none
  mime_type : Option String := none
  error : Option String := none
deriving DecidableEq

def msgSaveFailed : String := "保存文件失败: "

/-- Filename sanitisation of the local-file branch (line 435):
spaces become underscores, colons become dashes. -/
def safeFilename (s : String) : String :=
  String.mk (s.toList.map fun c => if c = ' ' then '_' else if c = ':' then '-' else c)

/-- The local filesystem, as a list of written files (most recent first). -/
abbrev LocalFS : Type := List (String × List Nat)

/-- `BaseRenderTool._save_rendered_artifact` (lines 394-457): with a
`tool_context` the bytes go to the versioned artifact store; without one they
are written to a local file under a sanitised name; any exception becomes a
failure dictionary. -/
def saveRenderedArtifact (penv : PersistEnv) (bytes : List Nat)
    (filename : String) (mime : String) (fs : LocalFS) : SaveResult × LocalFS :=
  match penv with
  | .withCtx (.ok v) =>
    ({ success := true, filename := some filename, version := some (.store v),
       mime_type := some mime }, fs)
  | .withCtx (.error e) =>
    ({ success := false, error := some (msgSaveFailed ++ e) }, fs)
  | .noCtx (.ok _) =>
    ({ success := true, filename := some (safeFilename filename),
       version := some .localFile, mime_type := some mime },
     (safeFilename filename, bytes) :: fs)
  | .noCtx (.error e) =>
    ({ success := false, error := some (msgSaveFailed ++ e) }, fs)

/-- Static configuration of one render tool: `name`, `supported_formats`,
`default_format` and its `_get_mime_type`. -/
structure ToolConfig where
  name : String
  supportedFormats : List String
  defaultFormat : String
  mime : String → String

def octetStream : String := "application/octet-stream"

/-- `BaseRenderTool._get_mime_type` (lines 482-503). -/
def baseMimeType (fmt : String) : String :=
  let f := fmt.toLower
  if f = "png" then "image/png"
  else if f = "jpg" then "image/jpeg"
  else if f = "jpeg" then "image/jpeg"
  else if f = "svg" then "image/svg+xml"
  else if f = "pdf" then "application/pdf"
  else if f = "gif" then "image/gif"
  else if f = "webp" then "image/webp"
  else if f = "html" then "text/html"
  else if f = "json" then "application/json"
  else octetStream

/-- `GraphvizRenderTool._get_mime_type` override (lines 504-515). -/
def graphvizMimeType (fmt : String) : String :=
  let f := fmt.toLower
  if f = "dot" then "text/vnd.graphviz"
  else if f = "ps" then "application/postscript"
  else if f = "png" then "image/png"
  else if f = "svg" then "image/svg+xml"
  else if f = "pdf" then "application/pdf"
  else octetStream

/-- The `MermaidRenderTool` constructor arguments (mermaid_render_tool.py
lines 20-27). -/
def mermaidTool : ToolConfig :=
  { name := "render_mermaid", supportedFormats := ["png", "svg", "pdf"],
    defaultFormat := "png", mime := baseMimeType }

/-- The `GraphvizRenderTool` constructor arguments (graphviz_render_tool.py
lines 68-75). -/
def graphvizTool : ToolConfig :=
  { name := "graphviz_render", supportedFormats := ["png", "svg", "pdf", "dot", "ps"],
    defaultFormat := "png", mime := graphvizMimeType }

/-- `ThreadPoolExecutor(max_workers=2)` created per tool instance in
`BaseRenderTool.__init__` (base_render_tool.py line 75). -/
def baseToolPoolSize : Nat := 2

/-- Request arguments extracted by `run_async` (lines 257-262), with the
source defaults. -/
structure RunArgs where
  code : List Char := []
  output_format : Option String := none
  title : String := "chart"
  width : Nat := 800
  height : Nat := 600

/-- The result dictionary of `run_async`; keys that appear only on some
paths are `Option`s. -/
structure RunResult where
  success : Bool
  error : Option String := none
  message : Option String := none
  supported_formats : Option (List String) := none
  fallback_code : Option (List Char) := none
  tool_name : Option String := none
  filename : Option String := none
  version : Option ArtifactVersion := none
  size : Option Nat := none
  format : Option String := none
  dimensions : Option String := none
deriving DecidableEq

/-- Instrumentation of one `run_async` call: whether `_render_sync` was
dispatched on the executor, whether `_save_rendered_artifact` was invoked,
and with which MIME type. -/
structure RunTrace where
  sandboxInvoked : Bool
  saveInvoked : Bool
  saveMime : Option String := none
deriving DecidableEq

def msgEmptyCode : String := "图表代码不能为空"

def msgEmptyCodeHint : String := "❌ 请提供要渲染的图表代码"

def msgUnsupportedFmt : String := "不支持的输出格式: "

def msgSupportedFmts : String := "❌ 支持的格式: "

def fmtSep : String := ", "

def msgRenderFailFallback : String := "渲染失败"

def msgSaveFailFallback : String := "保存失败"

def errSuffix : String := "\n\n已返回原始代码，您可以手动渲染。"

def errMid : String := "图表渲染失败: "

def okPrefix : String := "✅ "

def okMid : String := "图表已生成！文件: "

def errPrefix : String := "❌ "

def usep : String := "_"

def dotSep : String := "."

def xSep : String := "x"

/-- `BaseRenderTool._handle_render_error` (lines 460-480): every error routed
here carries the original code as `fallback_code`. -/
def handleRenderError (toolName : String) (err : String) (code : List Char) : RunResult :=
  { success := false, error := some err, fallback_code := some code,
    tool_name := some toolName,
    message := some (errPrefix ++ toolName ++ errMid ++ err ++ errSuffix) }

/-- `BaseRenderTool.run_async` (lines 246-328). Parameters supply the
tool configuration, the backend synchronous render (already applied to its
own environment), the wall-clock duration of that work (for the
`_render_async` deadline), the persistence environment, the current time
`now` (`int(time.time())`) and the pre-existing local filesystem. Returns
the result dictionary, the instrumentation trace and the resulting local
filesystem. -/
def runAsync (tool : ToolConfig)
    (render : List Char → String → Nat → Nat → RenderOutcome)
    (duration : Nat) (penv : PersistEnv) (now : Nat)
    (args : RunArgs) (fs : LocalFS) : RunResult × RunTrace × LocalFS :=
  let fmt := args.output_format.getD tool.defaultFormat
  if pyStrip args.code = [] then
    ({ success := false, error := some msgEmptyCode, message := some msgEmptyCodeHint },
     ⟨false, false, none⟩, fs)
  else if fmt ∉ tool.supportedFormats then
    ({ success := false, error := some (msgUnsupportedFmt ++ fmt),
       supported_formats := some tool.supportedFormats,
       message := some (msgSupportedFmts ++ String.intercalate fmtSep tool.supportedFormats) },
     ⟨false, false, none⟩, fs)
  else
    let rr := (renderAsync (render args.code fmt args.width args.height) duration).1
    if ¬ rr.success then
      (handleRenderError tool.name (rr.error.getD msgRenderFailFallback) args.code,
       ⟨true, false, none⟩, fs)
    else
      let filename := args.title ++ usep ++ toString now ++ dotSep ++ fmt
      let mime := tool.mime fmt
      let saved := saveRenderedArtifact penv rr.data filename mime fs
      if ¬ saved.1.success then
        (handleRenderError tool.name (saved.1.error.getD msgSaveFailFallback) args.code,
         ⟨true, true, some mime⟩, saved.2)
      else
        ({ success := true, filename := saved.1.filename, version := saved.1.version,
           size := some rr.data.length, format := some fmt,
           dimensions := some (toString args.width ++ xSep ++ toString args.height),
           tool_name := some tool.name,
           message := some (okPrefix ++ tool.name ++ okMid ++ (saved.1.filename.getD filename)) },
         ⟨true, true, some mime⟩, saved.2)

/-- The lines kept by the mermaid clean-up loop. -/
def keptLines (s : List Char) : List (List Char) :=
  (splitLines s).filterMap cleanLine

/-- Formalisation of code that is already fence-free and well-formed for the
mermaid preprocessor: after stripping, the code neither starts nor ends with
a triple-backtick fence, and no kept line starts or ends with one. -/
def fenceFree (x : List Char) : Prop :=
  (¬ fence3 <+: pyStrip x ∧ ¬ fence3 <:+ pyStrip x) ∧
    ∀ l ∈ keptLines (pyStrip x), ¬ fence3 <+: l ∧ ¬ fence3 <:+ l

instance (x : List Char) : Decidable (fenceFree x) := by
  unfold fenceFree keptLines
  infer_instance

theorem splitLines_ne_nil (s : List Char) : splitLines s ≠ [] := by
  cases s with
  | nil => simp [splitLines]
  | cons c cs =>
    simp only [splitLines]
    split
    · simp
    · cases h : splitLines cs <;> simp

theorem nl_not_mem_splitLines {s : List Char} : ∀ l ∈ splitLines s, '\n' ∉ l := by
  induction s with
  | nil =>
    intro l hl
    simp [splitLines] at hl
    simp [hl]
  | cons c cs ih =>
    intro l hl
    simp only [splitLines] at hl
    by_cases hc : c = '\n'
    · rw [if_pos hc] at hl
      rcases List.mem_cons.mp hl with h | h
      · simp [h]
      · exact ih l h
    · rw [if_neg hc] at hl
      cases h : splitLines cs with
      | nil => exact absurd h (splitLines_ne_nil cs)
      | cons m ms =>
        rw [h] at hl
        rcases List.mem_cons.mp hl with h2 | h2
        · subst h2
          intro hmem
          rcases List.mem_cons.mp hmem with h3 | h3
          · exact hc h3.symm
          · exact ih m (h ▸ List.mem_cons_self m ms) h3
        · exact ih l (h ▸ List.mem_cons.mpr (Or.inr h2))

theorem joinLines_splitLines (s : List Char) : joinLines (splitLines s) = s := by
  induction s with
  | nil => simp [splitLines, joinLines]
  | cons c cs ih =>
    simp only [splitLines]
    by_cases hc : c = '\n'
    · rw [if_pos hc]
      cases h : splitLines cs with
      | nil => exact absurd h (splitLines_ne_nil cs)
      | cons m ms =>
        rw [h] at ih
        simp only [joinLines]
        rw [ih, hc]
        rfl
    · rw [if_neg hc]
      cases h : splitLines cs with
      | nil => exact absurd h (splitLines_ne_nil cs)
      | cons m ms =>
        rw [h] at ih
        cases ms with
        | nil =>
          simp only [joinLines] at ih ⊢
          rw [ih]
        | cons m2 ms2 =>
          simp only [joinLines] at ih ⊢
          rw [List.cons_append, ih]

theorem splitLines_append_nl {l : List Char} (t : List Char) (hl : '\n' ∉ l) :
    splitLines (l ++ '\n' :: t) = l :: splitLines t := by
  induction l with
  | nil => simp [splitLines]
  | cons c l' ih =>
    have hc : c ≠ '\n' := fun h => hl (h ▸ List.mem_cons_self c l')
    have hl' : '\n' ∉ l' := fun h => hl (List.mem_cons.mpr (Or.inr h))
    have hstep : (c :: l') ++ '\n' :: t = c :: (l' ++ '\n' :: t) := rfl
    rw [hstep]
    simp only [splitLines, if_neg hc]
    rw [ih hl']

theorem splitLines_no_nl {l : List Char} (hl : '\n' ∉ l) : splitLines l = [l] := by
  induction l with
  | nil => simp [splitLines]
  | cons c l' ih =>
    have hc : c ≠ '\n' := fun h => hl (h ▸ List.mem_cons_self c l')
    have hl' : '\n' ∉ l' := fun h => hl (List.mem_cons.mpr (Or.inr h))
    simp only [splitLines, if_neg hc]
    rw [ih hl']

theorem splitLines_joinLines {ls : List (List Char)} (hne : ls ≠ [])
    (h : ∀ l ∈ ls, '\n' ∉ l) : splitLines (joinLines ls) = ls := by
  induction ls with
  | nil => exact absurd rfl hne
  | cons l ls' ih =>
    cases ls' with
    | nil =>
      simp only [joinLines]
      exact splitLines_no_nl (h l (List.mem_cons_self l []))
    | cons m ms =>
      simp only [joinLines]
      rw [splitLines_append_nl _ (h l (List.mem_cons_self l (m :: ms)))]
      rw [ih (by simp) (fun x hx => h x (List.mem_cons.mpr (Or.inr hx)))]

theorem filterMap_id_of {α : Type} {f : α → Option α} {l : List α}
    (h : ∀ x ∈ l, f x = some x) : l.filterMap f = l := by
  induction l with
  | nil => simp
  | cons a l' ih =>
    rw [List.filterMap_cons, h a (List.mem_cons_self a l'),
      ih (fun x hx => h x (List.mem_cons.mpr (Or.inr hx)))]

theorem pyStrip_sublist (l : List Char) : (pyStrip l).Sublist l := by
  unfold pyStrip
  exact ((List.rdropWhile_prefix isWS _).sublist).trans (List.dropWhile_suffix isWS).sublist

theorem mem_pyStrip {c : Char} {l : List Char} (h : c ∈ pyStrip l) : c ∈ l :=
  (pyStrip_sublist l).mem h

theorem head_congr {l1 l2 : List Char} (e : l1 = l2) (h1 : l1 ≠ []) :
    l1.head h1 = l2.head (e ▸ h1) := by subst e; rfl

theorem getLast_congr {l1 l2 : List Char} (e : l1 = l2) (h1 : l1 ≠ []) :
    l1.getLast h1 = l2.getLast (e ▸ h1) := by subst e; rfl

theorem pyStrip_head_not {l : List Char} (h : pyStrip l ≠ []) :
    isWS ((pyStrip l).head h) = false := by
  unfold pyStrip at h ⊢
  obtain ⟨t, ht⟩ := List.rdropWhile_prefix isWS (l.dropWhile isWS)
  have hd : l.dropWhile isWS ≠ [] := by
    intro he
    exact h (by rw [he, List.rdropWhile_nil])
  have hh : (l.dropWhile isWS).head hd
      = (List.rdropWhile isWS (l.dropWhile isWS)).head h := by
    rw [head_congr ht.symm hd, List.head_append]
    simp [List.isEmpty_iff, h]
  rw [← hh]
  exact List.head_dropWhile_not isWS l hd

theorem pyStrip_last_not {l : List Char} (h : pyStrip l ≠ []) :
    isWS ((pyStrip l).getLast h) = false := by
  unfold pyStrip at h ⊢
  have := List.rdropWhile_last_not isWS (l.dropWhile isWS) h
  simpa using this

theorem pyStrip_eq_self {l : List Char}
    (h : ∀ hne : l ≠ [], isWS (l.head hne) = false ∧ isWS (l.getLast hne) = false) :
    pyStrip l = l := by
  cases l with
  | nil => simp [pyStrip, List.rdropWhile]
  | cons c cs =>
    have hd : List.dropWhile isWS (c :: cs) = c :: cs := by
      have := (h (by simp)).1
      simp only [List.head_cons] at this
      simp [List.dropWhile, this]
    unfold pyStrip
    rw [hd, List.rdropWhile_eq_self_iff]
    intro hl
    exact (by simp [(h (by simp)).2] : ¬ isWS ((c :: cs).getLast hl) = true)

theorem pyStrip_idem (l : List Char) : pyStrip (pyStrip l) = pyStrip l := by
  apply pyStrip_eq_self
  intro hne
  exact ⟨pyStrip_head_not hne, pyStrip_last_not hne⟩

theorem joinLines_cons_shape (l : List Char) (ls : List (List Char)) :
    ∃ t, joinLines (l :: ls) = l ++ t ∧ (t = [] ∨ ∃ u, t = '\n' :: u) := by
  cases ls with
  | nil => exact ⟨[], by simp [joinLines], Or.inl rfl⟩
  | cons m ms =>
    exact ⟨'\n' :: joinLines (m :: ms), by simp [joinLines], Or.inr ⟨_, rfl⟩⟩

theorem joinLines_concat (ls : List (List Char)) (l : List Char) :
    joinLines (ls ++ [l]) = if ls = [] then l else joinLines ls ++ '\n' :: l := by
  induction ls with
  | nil => simp [joinLines]
  | cons a ls' ih =>
    cases ls' with
    | nil => simp [joinLines]
    | cons b ls'' =>
      have e1 : (a :: b :: ls'') ++ [l] = a :: ((b :: ls'') ++ [l]) := rfl
      rw [e1]
      have e2 : joinLines (a :: ((b :: ls'') ++ [l]))
          = a ++ '\n' :: joinLines ((b :: ls'') ++ [l]) := rfl
      rw [e2, ih]
      simp [joinLines, List.append_assoc]

theorem prefix_stop {p a t : List Char} (hp : p <+: a ++ t) (hn : '\n' ∉ p)
    (ht : t = [] ∨ ∃ u, t = '\n' :: u) : p <+: a := by
  rcases List.prefix_or_prefix_of_prefix hp (List.prefix_append a t) with h | h
  · exact h
  · obtain ⟨p', rfl⟩ := h
    have hp' : p' <+: t := (List.prefix_append_right_inj a).mp hp
    cases p' with
    | nil => simp
    | cons c cs =>
      exfalso
      rcases ht with rfl | ⟨u, rfl⟩
      · simp [List.prefix_nil] at hp'
      · obtain ⟨w, hw⟩ := hp'
        have hc : c = '\n' := by
          have := congrArg (List.head? ·) hw
          simpa using this
        exact hn (by simp [hc])

theorem fence_not_prefix_join {K : List (List Char)}
    (h : ∀ l ∈ K, ¬ fence3 <+: l) : ¬ fence3 <+: joinLines K := by
  cases K with
  | nil =>
    intro hp
    simp only [joinLines, List.prefix_nil] at hp
    exact absurd hp (by decide)
  | cons l ls =>
    obtain ⟨t, hj, hshape⟩ := joinLines_cons_shape l ls
    intro hp
    rw [hj] at hp
    exact h l (List.mem_cons_self l ls) (prefix_stop hp (by decide) hshape)

theorem fence_not_suffix_join {K : List (List Char)}
    (h : ∀ l ∈ K, ¬ fence3 <:+ l) : ¬ fence3 <:+ joinLines K := by
  rcases List.eq_nil_or_concat K with rfl | ⟨L, b, rfl⟩
  · intro hs
    simp only [joinLines, List.suffix_nil] at hs
    exact absurd hs (by decide)
  · have hb : b ∈ L.concat b := by simp
    rw [List.concat_eq_append, joinLines_concat]
    by_cases hL : L = []
    · rw [if_pos hL]
      exact h b hb
    · rw [if_neg hL]
      intro hs
      have hrev : fence3.reverse <+: (joinLines L ++ '\n' :: b).reverse :=
        List.reverse_prefix.mpr hs
      rw [List.reverse_append] at hrev
      have hrev2 : ('\n' :: b).reverse = b.reverse ++ '\n' :: (joinLines L).reverse
          → True := fun _ => trivial
      have hsplit : ('\n' :: b).reverse ++ (joinLines L).reverse
          = b.reverse ++ ('\n' :: (joinLines L).reverse) := by
        simp [List.reverse_cons, List.append_assoc]
      rw [hsplit] at hrev
      have : fence3.reverse <+: b.reverse :=
        prefix_stop hrev (by decide) (Or.inr ⟨_, rfl⟩)
      exact h b hb (List.reverse_prefix.mp this)

theorem keptLines_spec {s l : List Char} (h : l ∈ keptLines s) :
    pyStrip l = l ∧ l ≠ [] ∧ ¬ commentOpen.isPrefixOf l ∧ '\n' ∉ l := by
  obtain ⟨t, ht, hc⟩ := List.mem_filterMap.mp h
  unfold cleanLine at hc
  dsimp only at hc
  by_cases h1 : pyStrip t = []
  · rw [if_pos h1] at hc; cases hc
  · rw [if_neg h1] at hc
    by_cases h2 : commentOpen.isPrefixOf (pyStrip t) = true
    · rw [if_pos h2] at hc; cases hc
    · rw [if_neg h2] at hc
      have hl : l = pyStrip t := by injection hc with hc'; exact hc'.symm
      subst hl
      refine ⟨pyStrip_idem t, h1, h2, ?_⟩
      intro hmem
      exact nl_not_mem_splitLines t ht (mem_pyStrip hmem)

theorem cleanLine_fixed {l : List Char} (h1 : pyStrip l = l) (h2 : l ≠ [])
    (h3 : ¬ commentOpen.isPrefixOf l) : cleanLine l = some l := by
  unfold cleanLine
  dsimp only
  rw [h1, if_neg h2, if_neg h3]

theorem keptLines_head_not {s l : List Char} (h : l ∈ keptLines s) (hne : l ≠ []) :
    isWS (l.head hne) = false := by
  have h1 := (keptLines_spec h).1
  have := pyStrip_head_not (l := l) (by rw [h1]; exact hne)
  rw [head_congr h1 (by rw [h1]; exact hne)] at this
  exact this

theorem keptLines_last_not {s l : List Char} (h : l ∈ keptLines s) (hne : l ≠ []) :
    isWS (l.getLast hne) = false := by
  have h1 := (keptLines_spec h).1
  have := pyStrip_last_not (l := l) (by rw [h1]; exact hne)
  rw [getLast_congr h1 (by rw [h1]; exact hne)] at this
  exact this

theorem fixed_head_not {l : List Char} (h1 : pyStrip l = l) (hne : l ≠ []) :
    isWS (l.head hne) = false := by
  have := pyStrip_head_not (l := l) (by rw [h1]; exact hne)
  rw [head_congr h1 (by rw [h1]; exact hne)] at this
  exact this

theorem fixed_last_not {l : List Char} (h1 : pyStrip l = l) (hne : l ≠ []) :
    isWS (l.getLast hne) = false := by
  have := pyStrip_last_not (l := l) (by rw [h1]; exact hne)
  rw [getLast_congr h1 (by rw [h1]; exact hne)] at this
  exact this

theorem pyStrip_join_fixed {K : List (List Char)}
    (hspec : ∀ l ∈ K, pyStrip l = l ∧ l ≠ []) :
    pyStrip (joinLines K) = joinLines K := by
  apply pyStrip_eq_self
  intro hne
  constructor
  · cases K with
    | nil => simp [joinLines] at hne
    | cons l ls =>
      obtain ⟨t, hj, _⟩ := joinLines_cons_shape l ls
      have hl := hspec l (List.mem_cons_self l ls)
      rw [head_congr hj hne, List.head_append]
      rw [dif_neg (by simp [List.isEmpty_iff, hl.2])]
      exact fixed_head_not hl.1 hl.2
  · rcases List.eq_nil_or_concat K with rfl | ⟨L, b, rfl⟩
    · simp [joinLines] at hne
    · have hKeq : joinLines (L.concat b) = joinLines (L ++ [b]) := by
        rw [List.concat_eq_append]
      rw [getLast_congr hKeq hne]
      have hne2 : joinLines (L ++ [b]) ≠ [] := hKeq ▸ hne
      have hb := hspec b (by simp)
      have he : joinLines (L ++ [b])
          = if L = [] then b else joinLines L ++ '\n' :: b := joinLines_concat L b
      by_cases hL : L = []
      · rw [if_pos hL] at he
        rw [getLast_congr he hne2]
        exact fixed_last_not hb.1 hb.2
      · rw [if_neg hL] at he
        rw [getLast_congr he hne2, List.getLast_append]
        rw [dif_neg (by simp)]
        have hcast : ('\n' :: b).getLast (by simp) = b.getLast hb.2 :=
          List.getLast_cons hb.2
        rw [hcast]
        exact fixed_last_not hb.1 hb.2

theorem pyStrip_join_kept (s : List Char) :
    pyStrip (joinLines (keptLines s)) = joinLines (keptLines s) :=
  pyStrip_join_fixed (fun l hl =>
    ⟨(keptLines_spec hl).1, (keptLines_spec hl).2.1⟩)

theorem mermaidClean_kept (s : List Char) :
    mermaidClean (joinLines (keptLines s)) = joinLines (keptLines s) := by
  cases hK : keptLines s with
  | nil => rfl
  | cons l ls =>
    unfold mermaidClean
    rw [← hK]
    rw [splitLines_joinLines (by rw [hK]; simp)
      (fun m hm => (keptLines_spec hm).2.2.2)]
    rw [filterMap_id_of (fun m hm => cleanLine_fixed (keptLines_spec hm).1
      (keptLines_spec hm).2.1 (keptLines_spec hm).2.2.1)]

theorem stripFence_id {s : List Char} (h1 : ¬ fence3 <+: s) (h2 : ¬ fence3 <:+ s) :
    stripFence s = s := by
  have e1 : fenceMermaid.isPrefixOf s = false := by
    rw [Bool.eq_false_iff]
    intro hb
    exact h1 ((by decide : fence3 <+: fenceMermaid).trans
      (List.isPrefixOf_iff_prefix.mp hb))
  have e2 : fence3.isPrefixOf s = false := by
    rw [Bool.eq_false_iff]
    intro hb
    exact h1 (List.isPrefixOf_iff_prefix.mp hb)
  have e3 : fence3.isSuffixOf s = false := by
    rw [Bool.eq_false_iff]
    intro hb
    exact h2 (List.isSuffixOf_iff_suffix.mp hb)
  simp [stripFence, e1, e2, e3]

theorem preprocessMermaid_idem {x : List Char} (hf : fenceFree x) :
    preprocessMermaid (preprocessMermaid x) = preprocessMermaid x := by
  obtain ⟨⟨hp, hs⟩, hlines⟩ := hf
  have h0 : stripFence (pyStrip x) = pyStrip x := stripFence_id hp hs
  have hpre : preprocessMermaid x = joinLines (keptLines (pyStrip x)) := by
    unfold preprocessMermaid mermaidClean keptLines
    rw [h0]
  have hJstrip := pyStrip_join_kept (pyStrip x)
  have hJp : ¬ fence3 <+: joinLines (keptLines (pyStrip x)) :=
    fence_not_prefix_join (fun l hl => (hlines l hl).1)
  have hJs : ¬ fence3 <:+ joinLines (keptLines (pyStrip x)) :=
    fence_not_suffix_join (fun l hl => (hlines l hl).2)
  rw [hpre]
  unfold preprocessMermaid
  rw [hJstrip, stripFence_id hJp hJs]
  exact mermaidClean_kept (pyStrip x)

theorem removeFont_cons_none {q c : Char} {cs : List Char}
    (h : tryFont q (c :: cs) = none) :
    removeFont q (c :: cs) = c :: removeFont q cs := by
  rw [removeFont_cons, h]

theorem removeFont_cons_some {q c : Char} {cs rest : List Char}
    (h : tryFont q (c :: cs) = some rest) :
    removeFont q (c :: cs) = removeFont q rest := by
  rw [removeFont_cons, h]

theorem removeFont_eq_of_some {q : Char} {s rest : List Char}
    (hne : s ≠ []) (h : tryFont q s = some rest) :
    removeFont q s = removeFont q rest := by
  cases s with
  | nil => exact absurd rfl hne
  | cons c cs => exact removeFont_cons_some h

theorem tryFont_none_of {q c : Char} {cs : List Char} (hc : c.toLower ≠ 'f') :
    tryFont q (c :: cs) = none := by
  unfold tryFont
  have e : stripCI fontnameChars (c :: cs) = none := by
    have hfc : fontnameChars = 'f' :: "ontname".toList := rfl
    rw [hfc]
    simp only [stripCI]
    rw [if_neg]
    intro he
    exact hc he.symm
  rw [e]

theorem removeFont_append_of {q : Char} {pre rest : List Char}
    (h : ∀ c ∈ pre, c.toLower ≠ 'f') :
    removeFont q (pre ++ rest) = pre ++ removeFont q rest := by
  induction pre with
  | nil => rfl
  | cons c pre' ih =>
    have hc : c.toLower ≠ 'f' := h c (List.mem_cons_self c pre')
    have hstep : (c :: pre') ++ rest = c :: (pre' ++ rest) := rfl
    rw [hstep, removeFont_cons_none (tryFont_none_of hc),
      ih (fun x hx => h x (List.mem_cons.mpr (Or.inr hx)))]
    rfl

theorem removeFont_nil (q : Char) : removeFont q [] = [] := rfl

theorem removeFont_id_of {q : Char} {s : List Char}
    (h : ∀ c ∈ s, c.toLower ≠ 'f') : removeFont q s = s := by
  have := @removeFont_append_of q s [] h
  simpa [removeFont_nil] using this

theorem stripCI_self {s : List Char} (p : List Char) : stripCI p (p ++ s) = some s := by
  induction p with
  | nil => rfl
  | cons a ps ih =>
    have hstep : (a :: ps) ++ s = a :: (ps ++ s) := rfl
    rw [hstep]
    simp only [stripCI, if_pos rfl]
    exact ih

theorem scanQuoted_through {q : Char} {v b : List Char}
    (hv : ∀ c ∈ v, c ≠ q ∧ c ≠ '\n') : scanQuoted q (v ++ q :: b) = some b := by
  induction v with
  | nil => simp [scanQuoted]
  | cons c v' ih =>
    have hc := hv c (List.mem_cons_self c v')
    have hstep : (c :: v') ++ q :: b = c :: (v' ++ q :: b) := rfl
    rw [hstep]
    simp only [scanQuoted, if_neg hc.1, if_neg hc.2]
    exact ih (fun x hx => hv x (List.mem_cons.mpr (Or.inr hx)))

/-- The exact shape of a quoted fontname assignment, `fontname=<q>v<q>`. -/
def fontAssign (q : Char) (v : List Char) : List Char :=
  fontnameChars ++ '=' :: q :: (v ++ [q])

theorem fontAssign_append (q : Char) (v b : List Char) :
    fontAssign q v ++ b = fontnameChars ++ '=' :: q :: (v ++ q :: b) := by
  simp [fontAssign, List.append_assoc]

theorem tryFont_match {q : Char} {v b : List Char} (hq : isWS q = false)
    (hv : ∀ c ∈ v, c ≠ q ∧ c ≠ '\n') :
    tryFont q (fontAssign q v ++ b) = some b := by
  rw [fontAssign_append]
  unfold tryFont
  rw [stripCI_self fontnameChars]
  dsimp only
  have e1 : List.dropWhile isWS ('=' :: q :: (v ++ q :: b))
      = '=' :: q :: (v ++ q :: b) := by
    rw [List.dropWhile_cons, if_neg (by decide)]
  rw [e1]
  dsimp only
  rw [if_pos rfl]
  have e2 : List.dropWhile isWS (q :: (v ++ q :: b)) = q :: (v ++ q :: b) := by
    rw [List.dropWhile_cons, if_neg (by simp [hq])]
  rw [e2]
  dsimp only
  rw [if_pos rfl]
  exact scanQuoted_through hv

theorem tryFont_other_quote {q q' : Char} {v b : List Char} (hq' : isWS q' = false)
    (hne : q' ≠ q) : tryFont q (fontAssign q' v ++ b) = none := by
  rw [fontAssign_append]
  unfold tryFont
  rw [stripCI_self fontnameChars]
  dsimp only
  have e1 : List.dropWhile isWS ('=' :: q' :: (v ++ q' :: b))
      = '=' :: q' :: (v ++ q' :: b) := by
    rw [List.dropWhile_cons, if_neg (by decide)]
  rw [e1]
  dsimp only
  rw [if_pos rfl]
  have e2 : List.dropWhile isWS (q' :: (v ++ q' :: b)) = q' :: (v ++ q' :: b) := by
    rw [List.dropWhile_cons, if_neg (by simp [hq'])]
  rw [e2]
  dsimp only
  rw [if_neg hne]

theorem removeFont_removes {q : Char} {a v b : List Char} (hq : isWS q = false)
    (ha : ∀ c ∈ a, c.toLower ≠ 'f') (hb : ∀ c ∈ b, c.toLower ≠ 'f')
    (hv : ∀ c ∈ v, c ≠ q ∧ c ≠ '\n') :
    removeFont q (a ++ fontAssign q v ++ b) = a ++ b := by
  rw [List.append_assoc, removeFont_append_of ha,
    removeFont_eq_of_some (by simp [fontAssign, fontnameChars]) (tryFont_match hq hv),
    removeFont_id_of hb]

theorem removeFontnames_append {pre rest : List Char}
    (h : ∀ c ∈ pre, c.toLower ≠ 'f') :
    removeFontnames (pre ++ rest) = pre ++ removeFontnames rest := by
  unfold removeFontnames
  rw [removeFont_append_of h, removeFont_append_of h]

theorem removeFontnames_dq {a v b : List Char}
    (ha : ∀ c ∈ a, c.toLower ≠ 'f') (hb : ∀ c ∈ b, c.toLower ≠ 'f')
    (hv : ∀ c ∈ v, c ≠ '"' ∧ c ≠ '\n') :
    removeFontnames (a ++ fontAssign '"' v ++ b) = a ++ b := by
  unfold removeFontnames
  rw [removeFont_removes (by decide) ha hb hv]
  exact removeFont_id_of (fun c hc => by
    rcases List.mem_append.mp hc with h1 | h1
    · exact ha c h1
    · exact hb c h1)

theorem mem_fontAssign_tail {q c : Char} {v : List Char}
    (hq : q.toLower ≠ 'f') (hv : ∀ x ∈ v, x.toLower ≠ 'f')
    (hc : c ∈ ("ontname".toList ++ '=' :: q :: (v ++ [q]))) : c.toLower ≠ 'f' := by
  rcases List.mem_append.mp hc with h1 | h1
  · exact (by decide : ∀ y ∈ "ontname".toList, y.toLower ≠ 'f') c h1
  · rcases List.mem_cons.mp h1 with rfl | h2
    · decide
    · rcases List.mem_cons.mp h2 with rfl | h3
      · exact hq
      · rcases List.mem_append.mp h3 with h4 | h4
        · exact hv c h4
        · rcases List.mem_cons.mp h4 with rfl | h5
          · exact hq
          · cases h5

theorem removeFontnames_sq {a v b : List Char}
    (ha : ∀ c ∈ a, c.toLower ≠ 'f') (hb : ∀ c ∈ b, c.toLower ≠ 'f')
    (hv : ∀ c ∈ v, c.toLower ≠ 'f' ∧ c ≠ '\x27' ∧ c ≠ '\n') :
    removeFontnames (a ++ fontAssign '\x27' v ++ b) = a ++ b := by
  unfold removeFontnames
  have step1 : removeFont '"' (a ++ fontAssign '\x27' v ++ b)
      = a ++ fontAssign '\x27' v ++ b := by
    rw [List.append_assoc, removeFont_append_of ha]
    have hshape : fontAssign '\x27' v ++ b
        = 'f' :: (("ontname".toList ++ '=' :: '\x27' :: (v ++ ['\x27'])) ++ b) := by
      simp [fontAssign, fontnameChars]
    rw [hshape]
    rw [removeFont_cons_none (by
      rw [← hshape]
      exact tryFont_other_quote (by decide) (by decide))]
    rw [removeFont_id_of (fun c hc => by
      rcases List.mem_append.mp hc with h1 | h1
      · exact mem_fontAssign_tail (by decide) (fun x hx => (hv x hx).1) h1
      · exact hb c h1)]
  rw [step1, removeFont_removes (by decide) ha hb
    (fun c hc => ⟨(hv c hc).2.1, (hv c hc).2.2⟩)]

theorem subOpenComma_cons_ne {c : Char} {cs : List Char} (hc : c ≠ '[') :
    subOpenComma (c :: cs) = c :: subOpenComma cs :=
  subPair_cons_ne hc

theorem subCommaComma_cons_ne {c : Char} {cs : List Char} (hc : c ≠ ',') :
    subCommaComma (c :: cs) = c :: subCommaComma cs :=
  subPair_cons_ne hc

theorem subCommaClose_cons_ne {c : Char} {cs : List Char} (hc : c ≠ ',') :
    subCommaClose (c :: cs) = c :: subCommaClose cs :=
  subPair_cons_ne hc

theorem subOpenComma_append {pre rest : List Char} (h : ∀ c ∈ pre, c ≠ '[') :
    subOpenComma (pre ++ rest) = pre ++ subOpenComma rest := by
  induction pre with
  | nil => rfl
  | cons c pre' ih =>
    have hstep : (c :: pre') ++ rest = c :: (pre' ++ rest) := rfl
    rw [hstep, subOpenComma_cons_ne (h c (List.mem_cons_self c pre')),
      ih (fun x hx => h x (List.mem_cons.mpr (Or.inr hx)))]
    rfl

theorem subCommaComma_append {pre rest : List Char} (h : ∀ c ∈ pre, c ≠ ',') :
    subCommaComma (pre ++ rest) = pre ++ subCommaComma rest := by
  induction pre with
  | nil => rfl
  | cons c pre' ih =>
    have hstep : (c :: pre') ++ rest = c :: (pre' ++ rest) := rfl
    rw [hstep, subCommaComma_cons_ne (h c (List.mem_cons_self c pre')),
      ih (fun x hx => h x (List.mem_cons.mpr (Or.inr hx)))]
    rfl

theorem subCommaClose_append {pre rest : List Char} (h : ∀ c ∈ pre, c ≠ ',') :
    subCommaClose (pre ++ rest) = pre ++ subCommaClose rest := by
  induction pre with
  | nil => rfl
  | cons c pre' ih =>
    have hstep : (c :: pre') ++ rest = c :: (pre' ++ rest) := rfl
    rw [hstep, subCommaClose_cons_ne (h c (List.mem_cons_self c pre')),
      ih (fun x hx => h x (List.mem_cons.mpr (Or.inr hx)))]
    rfl

theorem cleanupCommas_append {pre rest : List Char}
    (h : ∀ c ∈ pre, c ≠ '[' ∧ c ≠ ',') :
    cleanupCommas (pre ++ rest) = pre ++ cleanupCommas rest := by
  unfold cleanupCommas
  rw [subOpenComma_append (fun c hc => (h c hc).1),
    subCommaComma_append (fun c hc => (h c hc).2),
    subCommaClose_append (fun c hc => (h c hc).2)]

theorem injectAt_split {fa : List Char} {pre rest : List Char}
    (h : ∀ c ∈ pre, c ≠ '\x7b') :
    injectAt fa (pre ++ '\x7b' :: rest) = pre ++ '\x7b' :: (fa ++ rest) := by
  induction pre with
  | nil => simp [injectAt]
  | cons c pre' ih =>
    have hstep : (c :: pre') ++ '\x7b' :: rest = c :: (pre' ++ '\x7b' :: rest) := rfl
    rw [hstep]
    simp only [injectAt, if_neg (h c (List.mem_cons_self c pre'))]
    rw [ih (fun x hx => h x (List.mem_cons.mpr (Or.inr hx)))]
    rfl

theorem injectAt_infix {fa : List Char} {s : List Char} (h : '\x7b' ∈ s) :
    fa <:+: injectAt fa s := by
  induction s with
  | nil => cases h
  | cons c cs ih =>
    by_cases hc : c = '\x7b'
    · subst hc
      simp only [injectAt, if_pos rfl]
      exact ⟨['\x7b'], cs, rfl⟩
    · have hcs : '\x7b' ∈ cs := by
        rcases List.mem_cons.mp h with h1 | h1
        · exact absurd h1.symm hc
        · exact h1
      simp only [injectAt, if_neg hc]
      exact List.infix_cons (ih hcs)

/-- The auto-wrap header up to and including its opening brace (digraph). -/
def dwrapHead : List Char := "digraph G \x7b".toList

/-- The auto-wrap header up to and including its opening brace (graph). -/
def gwrapHead : List Char := "graph G \x7b".toList

theorem preprocessDot_wrap_digraph {p : Platform} {code : List Char}
    (hd : hasDecl (pyStrip code) = false) (harrow : hasArrow (pyStrip code) = true) :
    dwrapHead <+: preprocessDot p code := by
  unfold preprocessDot dotBeforeInject
  dsimp only
  rw [hd]
  rw [if_neg (by simp)]
  unfold wrapDot
  rw [harrow, if_pos rfl]
  rw [List.append_assoc,
    removeFontnames_append (by decide : ∀ c ∈ dwrapL, c.toLower ≠ 'f'),
    cleanupCommas_append (by decide : ∀ c ∈ dwrapL, c ≠ '[' ∧ c ≠ ',')]
  have e : dwrapL ++ cleanupCommas (removeFontnames (pyStrip code ++ wrapR))
      = "digraph G ".toList
        ++ '\x7b' :: ('\n' :: cleanupCommas (removeFontnames (pyStrip code ++ wrapR))) := by
    rfl
  rw [e, injectAt_split (by decide : ∀ c ∈ "digraph G ".toList, c ≠ '\x7b')]
  exact ⟨fontAttrs p ++ '\n' :: cleanupCommas (removeFontnames (pyStrip code ++ wrapR)),
    by rfl⟩

theorem preprocessDot_wrap_graph {p : Platform} {code : List Char}
    (hd : hasDecl (pyStrip code) = false) (harrow : hasArrow (pyStrip code) = false) :
    gwrapHead <+: preprocessDot p code := by
  unfold preprocessDot dotBeforeInject
  dsimp only
  rw [hd]
  rw [if_neg (by simp)]
  unfold wrapDot
  rw [harrow]
  rw [if_neg (by simp)]
  rw [List.append_assoc,
    removeFontnames_append (by decide : ∀ c ∈ gwrapL, c.toLower ≠ 'f'),
    cleanupCommas_append (by decide : ∀ c ∈ gwrapL, c ≠ '[' ∧ c ≠ ',')]
  have e : gwrapL ++ cleanupCommas (removeFontnames (pyStrip code ++ wrapR))
      = "graph G ".toList
        ++ '\x7b' :: ('\n' :: cleanupCommas (removeFontnames (pyStrip code ++ wrapR))) := by
    rfl
  rw [e, injectAt_split (by decide : ∀ c ∈ "graph G ".toList, c ≠ '\x7b')]
  exact ⟨fontAttrs p ++ '\n' :: cleanupCommas (removeFontnames (pyStrip code ++ wrapR)),
    by rfl⟩

theorem fontAttrs_infix_of_brace {p : Platform} {code : List Char}
    (h : '\x7b' ∈ dotBeforeInject code) :
    fontAttrs p <:+: preprocessDot p code := by
  unfold preprocessDot
  exact injectAt_infix h

theorem runAsync_empty (tool : ToolConfig)
    (render : List Char → String → Nat → Nat → RenderOutcome)
    (duration : Nat) (penv : PersistEnv) (now : Nat) (args : RunArgs) (fs : LocalFS)
    (h : pyStrip args.code = []) :
    runAsync tool render duration penv now args fs
      = ({ success := false, error := some msgEmptyCode,
           message := some msgEmptyCodeHint }, ⟨false, false, none⟩, fs) := by
  unfold runAsync
  rw [if_pos h]

theorem runAsync_unsupported (tool : ToolConfig)
    (render : List Char → String → Nat → Nat → RenderOutcome)
    (duration : Nat) (penv : PersistEnv) (now : Nat) (args : RunArgs) (fs : LocalFS)
    (h1 : pyStrip args.code ≠ [])
    (h2 : args.output_format.getD tool.defaultFormat ∉ tool.supportedFormats) :
    runAsync tool render duration penv now args fs
      = ({ success := false,
           error := some (msgUnsupportedFmt ++ args.output_format.getD tool.defaultFormat),
           supported_formats := some tool.supportedFormats,
           message := some (msgSupportedFmts
             ++ String.intercalate fmtSep tool.supportedFormats) },
         ⟨false, false, none⟩, fs) := by
  unfold runAsync
  rw [if_neg h1, if_pos h2]

theorem runAsync_render_failed (tool : ToolConfig)
    (render : List Char → String → Nat → Nat → RenderOutcome)
    (duration : Nat) (penv : PersistEnv) (now : Nat) (args : RunArgs) (fs : LocalFS)
    (h1 : pyStrip args.code ≠ [])
    (h2 : args.output_format.getD tool.defaultFormat ∈ tool.supportedFormats)
    (h3 : (renderAsync (render args.code (args.output_format.getD tool.defaultFormat)
      args.width args.height) duration).1.success = false) :
    runAsync tool render duration penv now args fs
      = (handleRenderError tool.name
          ((renderAsync (render args.code (args.output_format.getD tool.defaultFormat)
            args.width args.height) duration).1.error.getD msgRenderFailFallback)
          args.code,
         ⟨true, false, none⟩, fs) := by
  unfold runAsync
  rw [if_neg h1, if_neg (fun hn => hn h2), if_pos (by simp [h3])]

theorem runAsync_rendered (tool : ToolConfig)
    (render : List Char → String → Nat → Nat → RenderOutcome)
    (duration : Nat) (penv : PersistEnv) (now : Nat) (args : RunArgs) (fs : LocalFS)
    (h1 : pyStrip args.code ≠ [])
    (h2 : args.output_format.getD tool.defaultFormat ∈ tool.supportedFormats)
    (h3 : (renderAsync (render args.code (args.output_format.getD tool.defaultFormat)
      args.width args.height) duration).1.success = true) :
    runAsync tool render duration penv now args fs
      = (let fmt := args.output_format.getD tool.defaultFormat
         let rr := (renderAsync (render args.code fmt args.width args.height) duration).1
         let filename := args.title ++ usep ++ toString now ++ dotSep ++ fmt
         let mime := tool.mime fmt
         let saved := saveRenderedArtifact penv rr.data filename mime fs
         if ¬ saved.1.success then
           (handleRenderError tool.name (saved.1.error.getD msgSaveFailFallback) args.code,
            ⟨true, true, some mime⟩, saved.2)
         else
           ({ success := true, filename := saved.1.filename, version := saved.1.version,
              size := some rr.data.length,
              format := some fmt,
              dimensions := some (toString args.width ++ xSep ++ toString args.height),
              tool_name := some tool.name,
              message := some (okPrefix ++ tool.name ++ okMid
                ++ (saved.1.filename.getD filename)) },
            ⟨true, true, some mime⟩, saved.2)) := by
  unfold runAsync
  rw [if_neg h1, if_neg (fun hn => hn h2), if_neg (by simp [h3])]

/-- A snapshot of the in-flight `_render_sync` executions: each entry is the
index of the tool instance on whose `ThreadPoolExecutor` it runs. Tool
instances create their executors independently in `BaseRenderTool.__init__`,
so pools are per-instance, never shared. -/
abbrev PoolSnapshot (n : Nat) : Type := List (Fin n)

/-- A snapshot the per-instance `ThreadPoolExecutor(max_workers=2)` pools can
actually exhibit: each tool instance runs at most `baseToolPoolSize` of the
in-flight executions. -/
def poolAdmissible {n : Nat} (s : PoolSnapshot n) : Prop :=
  ∀ i : Fin n, s.count i ≤ baseToolPoolSize

instance {n : Nat} (s : PoolSnapshot n) : Decidable (poolAdmissible s) := by
  unfold poolAdmissible
  infer_instance

theorem length_eq_sum_count {n : Nat} (s : List (Fin n)) :
    s.length = ∑ i : Fin n, s.count i := by
  induction s with
  | nil => simp
  | cons a t ih =>
    simp only [List.length_cons, List.count_cons, ih]
    rw [Finset.sum_add_distrib]
    have e : (∑ i : Fin n, if (a == i) = true then 1 else 0) = 1 := by
      have e2 : (∑ i : Fin n, if (a == i) = true then 1 else 0)
          = ∑ i : Fin n, if a = i then 1 else 0 := by
        apply Finset.sum_congr rfl
        intro i _
        simp [beq_iff_eq]
      rw [e2, Finset.sum_ite_eq]
      simp
    rw [e]

theorem poolAdmissible_length_le {n : Nat} {s : PoolSnapshot n}
    (h : poolAdmissible s) : s.length ≤ baseToolPoolSize * n := by
  rw [length_eq_sum_count]
  calc (∑ i : Fin n, s.count i) ≤ ∑ _i : Fin n, baseToolPoolSize :=
        Finset.sum_le_sum (fun i _ => h i)
    _ = baseToolPoolSize * n := by
        rw [Finset.sum_const]
        simp [Nat.mul_comm]

/-- An arbitrary mermaid subprocess environment (its values are unreachable
when the CLI is unavailable). -/
def mermaidEnvIdle : MermaidEnv :=
  { run := .completed 0 "", outputExists := true, outputBytes := [7] }

/-- A mermaid environment in which the CLI succeeds and writes one byte. -/
def mermaidEnvOk : MermaidEnv :=
  { run := .completed 0 "", outputExists := true, outputBytes := [1] }

def codeTD : List Char := "graph TD".toList

def c1Args : RunArgs := { code := codeTD, output_format := some "png" }

def c2Args : RunArgs := { code := [], output_format := some "gif" }

/-- A graphviz environment in which only the command line is available, the
dot process exits 0 and the output file exists but is empty. -/
def c4Env : GraphvizEnv :=
  { platform := .linux, pythonLibAvailable := false, cliAvailable := true,
    pyOutcome := .error "x", cliExeFound := true, cliRun := .ok (0, ""),
    cliOutputExists := true, cliOutputBytes := [] }

def c4Args : RunArgs :=
  { code := "digraph G \x7ba;\x7d".toList, output_format := some "png", title := "g" }

def c5x : List Char := "graph G\x7ba;\x7d".toList

def c5w : List Char := "graph TD\nA-->B".toList

def c6x : List Char := "digraph G\x7ba[fontname=Arial]\x7d".toList

def fontnameArial : List Char := "fontname=Arial".toList

def c8Args : RunArgs := { code := codeTD, output_format := some "gif" }

/-- A backend whose render always fails (for paths where it is not reached or
where a failing backend is wanted). -/
def failRender : List Char → String → Nat → Nat → RenderOutcome :=
  fun _ _ _ _ => { success := false }

/-- A backend whose render succeeds with the given bytes. -/
def okRender (d : List Nat) : List Char → String → Nat → Nat → RenderOutcome :=
  fun _ _ _ _ => { success := true, data := d }

/-- Claim C1, counterexample: with the mermaid CLI probed unavailable
(`_mmdc_available = false`), a render request with non-empty code and a
supported format still dispatches `_render_sync` on the executor —
`run_async` performs no availability check before `_render_async`, so the
claim that the executor-dispatched `_render_sync` is never invoked is false
at this input. -/
theorem mermaid_unavailable_sandbox_dispatched_cex :
    (runAsync mermaidTool (fun c f w h => mermaidRenderSync false mermaidEnvIdle c f w h)
      1 (.noCtx (.ok ())) 0 c1Args []).2.1.sandboxInvoked = true := by
  decide

/-- The failure dictionary `_render_sync` returns when the mermaid CLI is
unavailable. -/
def mmdcUnavailableOutcome : RenderOutcome :=
  { success := false, error := some msgMmdcUnavailable,
    suggestion := some msgMmdcSuggestion }

/-- Claim C1, amended: a render request to the unavailable mermaid backend
always returns a failure; when the 120-second deadline is not hit the error
is exactly the dependency-unavailable message produced inside
`_render_sync`, and `_render_sync` itself never launches the external
subprocess — but it is still the executor-dispatched `_render_sync` that
performs this check. -/
theorem unavailable_mermaid_fails_without_subprocess
    (env : MermaidEnv) (duration : Nat) (penv : PersistEnv) (now : Nat)
    (args : RunArgs) (fs : LocalFS)
    (h1 : pyStrip args.code ≠ [])
    (h2 : args.output_format.getD mermaidTool.defaultFormat ∈ mermaidTool.supportedFormats) :
    ((runAsync mermaidTool (fun c f w h => mermaidRenderSync false env c f w h)
        duration penv now args fs).1.success = false)
    ∧ (duration ≤ 120 →
        (runAsync mermaidTool (fun c f w h => mermaidRenderSync false env c f w h)
          duration penv now args fs).1.error = some msgMmdcUnavailable)
    ∧ (∀ c f w h, (mermaidRenderSyncFull false env c f w h).subprocessInvoked = false) := by
  have hsync : ∀ c f w h, mermaidRenderSync false env c f w h
      = mmdcUnavailableOutcome := by
    intro c f w h
    unfold mermaidRenderSync mermaidRenderSyncFull mmdcUnavailableOutcome
    rw [if_pos (by simp)]
  have h3 : (renderAsync (mermaidRenderSync false env args.code
      (args.output_format.getD mermaidTool.defaultFormat) args.width args.height)
      duration).1.success = false := by
    unfold renderAsync
    split
    · rfl
    · rw [hsync]
      rfl
  have heq := runAsync_render_failed mermaidTool
    (fun c f w h => mermaidRenderSync false env c f w h)
    duration penv now args fs h1 h2 h3
  refine ⟨?_, ?_, ?_⟩
  · rw [heq]
    rfl
  · intro hd
    rw [heq]
    have hlow2 : (renderAsync mmdcUnavailableOutcome duration).1.error
        = some msgMmdcUnavailable := by
      unfold renderAsync
      rw [if_neg (by omega)]
      rfl
    simp only [handleRenderError, hsync, hlow2, Option.getD_some]
  · intro c f w h
    unfold mermaidRenderSyncFull
    rw [if_pos (by simp)]

/-- Claim C1, witness for the amended theorem at a concrete request. -/
theorem unavailable_mermaid_fails_without_subprocess_w :
    (pyStrip c1Args.code ≠ [])
    ∧ (c1Args.output_format.getD mermaidTool.defaultFormat ∈ mermaidTool.supportedFormats)
    ∧ ((runAsync mermaidTool
        (fun c f w h => mermaidRenderSync false mermaidEnvIdle c f w h)
        1 (.noCtx (.ok ())) 0 c1Args []).1.success = false) :=
  ⟨by decide, by decide,
    (unavailable_mermaid_fails_without_subprocess mermaidEnvIdle 1 (.noCtx (.ok ())) 0
      c1Args [] (by decide) (by decide)).1⟩

/-- Claim C2, counterexample: a request whose format is unsupported but
whose code is empty is rejected by the empty-code check first, so the
failure carries no supported-format list — the claim fails for this
request. -/
theorem unsupported_format_empty_code_cex :
    (c2Args.output_format.getD mermaidTool.defaultFormat ∉ mermaidTool.supportedFormats)
    ∧ ((runAsync mermaidTool failRender 1 (.noCtx (.ok ())) 0 c2Args []).1.success = false)
    ∧ ((runAsync mermaidTool failRender 1 (.noCtx (.ok ())) 0 c2Args []).1.supported_formats
        = none) := by
  decide

/-- Claim C2, amended: for every request whose code is non-empty after
stripping and whose format is not in the tool's supported set, `run_async`
fails with the supported-format list attached, and neither the executor
dispatch (under which preprocessing and rendering happen) nor artifact
persistence is attempted; the filesystem is untouched. -/
theorem unsupported_format_rejected_with_list (tool : ToolConfig)
    (render : List Char → String → Nat → Nat → RenderOutcome)
    (duration : Nat) (penv : PersistEnv) (now : Nat) (args : RunArgs) (fs : LocalFS)
    (h1 : pyStrip args.code ≠ [])
    (h2 : args.output_format.getD tool.defaultFormat ∉ tool.supportedFormats) :
    ((runAsync tool render duration penv now args fs).1.success = false)
    ∧ ((runAsync tool render duration penv now args fs).1.supported_formats
        = some tool.supportedFormats)
    ∧ ((runAsync tool render duration penv now args fs).1.error
        = some (msgUnsupportedFmt ++ args.output_format.getD tool.defaultFormat))
    ∧ ((runAsync tool render duration penv now args fs).2.1
        = ⟨false, false, none⟩)
    ∧ ((runAsync tool render duration penv now args fs).2.2 = fs) := by
  have heq := runAsync_unsupported tool render duration penv now args fs h1 h2
  exact ⟨by rw [heq], by rw [heq], by rw [heq], by rw [heq], by rw [heq]⟩

/-- Claim C2, witness for the amended theorem at a concrete request. -/
theorem unsupported_format_rejected_with_list_w :
    (pyStrip c8Args.code ≠ [])
    ∧ (c8Args.output_format.getD mermaidTool.defaultFormat ∉ mermaidTool.supportedFormats)
    ∧ ((runAsync mermaidTool failRender 1 (.noCtx (.ok ())) 0 c8Args []).1.supported_formats
        = some mermaidTool.supportedFormats) :=
  ⟨by decide, by decide,
    (unsupported_format_rejected_with_list mermaidTool failRender 1 (.noCtx (.ok ())) 0
      c8Args [] (by decide) (by decide)).2.1⟩

/-- Claim C3: a synchronous work unit that takes 200 seconds exceeds the
120-second `asyncio.wait_for` deadline; `_render_async` then returns the
timeout error dictionary, but the `except asyncio.TimeoutError` branch
performs no termination of the dispatched work unit — the executor future is
merely abandoned (second component `false`), exactly the defect the
specification rules out. -/
theorem render_async_timeout_abandons_work (r : RenderOutcome) :
    renderAsync r 200 = (renderAsyncTimeoutOutcome, false) := by
  unfold renderAsync
  rw [if_pos (by omega)]

set_option maxRecDepth 8000 in
/-- Claim C4, counterexample: with the graphviz command-line path reporting
exit 0 and an existing but empty output file, `_render_sync` reports
success with zero bytes and `run_async` persists an empty artifact with
`size = 0` — the engine performs no empty-output check. -/
theorem empty_output_reported_success_cex :
    ((runAsync graphvizTool (fun c f w h => graphvizRenderSync c4Env c f w h)
        1 (.noCtx (.ok ())) 0 c4Args []).1.success = true)
    ∧ ((runAsync graphvizTool (fun c f w h => graphvizRenderSync c4Env c f w h)
        1 (.noCtx (.ok ())) 0 c4Args []).1.size = some 0)
    ∧ ((runAsync graphvizTool (fun c f w h => graphvizRenderSync c4Env c f w h)
        1 (.noCtx (.ok ())) 0 c4Args []).2.2 = [("g_0.png", [])]) := by
  decide

/-- Claim C4, amended: the mermaid backend does enforce the claim — whenever
`MermaidRenderTool._render_sync` reports success its data is non-empty,
because a zero-byte output file is turned into the empty-image failure. -/
theorem mermaid_success_nonempty_data (avail : Bool) (env : MermaidEnv)
    (code : List Char) (fmt : String) (w h : Nat)
    (hs : (mermaidRenderSyncFull avail env code fmt w h).outcome.success = true) :
    (mermaidRenderSyncFull avail env code fmt w h).outcome.data ≠ [] := by
  obtain ⟨run, outEx, outBy⟩ := env
  unfold mermaidRenderSyncFull at hs ⊢
  by_cases ha : avail = true
  · rw [if_neg (by simp [ha])] at hs ⊢
    dsimp only at hs ⊢
    cases run with
    | timedOut => simp at hs
    | raised e => simp at hs
    | completed rc stderr =>
      dsimp only at hs ⊢
      by_cases hrc : rc ≠ 0
      · rw [if_pos hrc] at hs; simp at hs
      · rw [if_neg hrc] at hs ⊢
        by_cases hex : outEx = true
        · rw [if_neg (by simp [hex])] at hs ⊢
          by_cases hby : outBy = []
          · rw [if_pos hby] at hs; simp at hs
          · rw [if_neg hby] at hs ⊢
            simpa using hby
        · rw [if_pos (by simp [hex])] at hs; simp at hs
  · rw [if_pos (by simp [ha])] at hs; simp at hs

/-- Claim C4, witness for the amended theorem at a concrete environment. -/
theorem mermaid_success_nonempty_data_w :
    ((mermaidRenderSyncFull true mermaidEnvOk codeTD "png" 1 1).outcome.success = true)
    ∧ ((mermaidRenderSyncFull true mermaidEnvOk codeTD "png" 1 1).outcome.data ≠ []) :=
  ⟨by decide, mermaid_success_nonempty_data true mermaidEnvOk codeTD "png" 1 1 (by decide)⟩

set_option maxRecDepth 4000 in
/-- Claim C5, counterexample: the graphviz preprocessor is not idempotent
even on a fence-free, well-formed DOT graph — a second application strips
the fontname attributes injected by the first (leaving empty attribute
lists) and injects a fresh font block. -/
theorem graphviz_preprocess_not_idempotent_cex :
    preprocessDot .linux (preprocessDot .linux c5x) ≠ preprocessDot .linux c5x := by
  decide

/-- Claim C5, amended: the mermaid preprocessor is idempotent on fence-free
input (no kept line opens or closes a triple-backtick fence and the stripped
code neither starts nor ends with one); the graphviz preprocessor is not
idempotent. -/
theorem mermaid_preprocess_idempotent (x : List Char) (hf : fenceFree x) :
    preprocessMermaid (preprocessMermaid x) = preprocessMermaid x :=
  preprocessMermaid_idem hf

/-- Claim C5, witness for the amended theorem at a concrete mermaid input. -/
theorem mermaid_preprocess_idempotent_w :
    fenceFree c5w ∧ preprocessMermaid (preprocessMermaid c5w) = preprocessMermaid c5w :=
  ⟨by decide, mermaid_preprocess_idempotent c5w (by decide)⟩

set_option maxRecDepth 4000 in
/-- Claim C6, counterexample: an unquoted `fontname=Arial` attribute — valid
DOT — survives preprocessing verbatim: the removal patterns only match
quoted fontname values, so not every pre-existing fontname attribute is
removed. -/
theorem unquoted_fontname_survives_cex :
    fontnameArial <:+: preprocessDot .linux c6x := by
  decide

/-- Claim C6, amended: for every DOT input, (1) code lacking a top-level
declaration is wrapped in a `digraph G` header when it contains an arrow and
a `graph G` header otherwise; (2) every pre-existing double-quoted or
single-quoted fontname attribute (value on one line, surroundings free of
further fontname material) is removed — an unquoted one survives; (3) the
platform-dependent global fontname block is injected right after the first
opening brace whenever one is present. -/
theorem graphviz_preprocess_wrap_defont_inject (p : Platform) :
    (∀ code : List Char, hasDecl (pyStrip code) = false →
      (hasArrow (pyStrip code) = true → dwrapHead <+: preprocessDot p code)
      ∧ (hasArrow (pyStrip code) = false → gwrapHead <+: preprocessDot p code))
    ∧ (∀ a v b : List Char, (∀ c ∈ a, c.toLower ≠ 'f') → (∀ c ∈ b, c.toLower ≠ 'f') →
        (∀ c ∈ v, c ≠ '"' ∧ c ≠ '\n') →
        removeFontnames (a ++ fontAssign '"' v ++ b) = a ++ b)
    ∧ (∀ a v b : List Char, (∀ c ∈ a, c.toLower ≠ 'f') → (∀ c ∈ b, c.toLower ≠ 'f') →
        (∀ c ∈ v, c.toLower ≠ 'f' ∧ c ≠ '\x27' ∧ c ≠ '\n') →
        removeFontnames (a ++ fontAssign '\x27' v ++ b) = a ++ b)
    ∧ (∀ code : List Char, '\x7b' ∈ dotBeforeInject code →
        fontAttrs p <:+: preprocessDot p code) := by
  refine ⟨?_, ?_, ?_, ?_⟩
  · intro code hd
    exact ⟨fun ha => preprocessDot_wrap_digraph hd ha,
      fun ha => preprocessDot_wrap_graph hd ha⟩
  · intro a v b ha hb hv
    exact removeFontnames_dq ha hb hv
  · intro a v b ha hb hv
    exact removeFontnames_sq ha hb hv
  · intro code hbrace
    exact fontAttrs_infix_of_brace hbrace

def c6wCode : List Char := "a -> b".toList

def brL : List Char := "[".toList

def brR : List Char := "]".toList

def arialChars : List Char := "Arial".toList

set_option maxRecDepth 4000 in
/-- Claim C6, witness for the amended theorem: each conjunct applied at a
concrete input. -/
theorem graphviz_preprocess_wrap_defont_inject_w :
    (hasDecl (pyStrip c6wCode) = false)
    ∧ (hasArrow (pyStrip c6wCode) = true)
    ∧ (dwrapHead <+: preprocessDot .linux c6wCode)
    ∧ (removeFontnames (brL ++ fontAssign '"' arialChars ++ brR) = brL ++ brR)
    ∧ (removeFontnames (brL ++ fontAssign '\x27' arialChars ++ brR) = brL ++ brR)
    ∧ ('\x7b' ∈ dotBeforeInject c6x)
    ∧ (fontAttrs .linux <:+: preprocessDot .linux c6x) :=
  ⟨by decide, by decide,
    ((graphviz_preprocess_wrap_defont_inject .linux).1 c6wCode (by decide)).1 (by decide),
    (graphviz_preprocess_wrap_defont_inject .linux).2.1 brL arialChars brR
      (by decide) (by decide) (by decide),
    (graphviz_preprocess_wrap_defont_inject .linux).2.2.1 brL arialChars brR
      (by decide) (by decide) (by decide),
    by decide,
    (graphviz_preprocess_wrap_defont_inject .linux).2.2.2 c6x (by decide)⟩

/-- Four in-flight renders, two on each of two tool instances. -/
def c7snapshot : PoolSnapshot 2 := [0, 0, 1, 1]

/-- Claim C7, counterexample: the per-instance pools admit four concurrent
executions across two tool instances, exceeding the two-worker size of any
single `ThreadPoolExecutor(max_workers=2)` — there is no pool shared across
backends capping global concurrency at the pool size. -/
theorem shared_pool_bound_cex :
    poolAdmissible c7snapshot ∧ ¬ (c7snapshot.length ≤ baseToolPoolSize) := by
  decide

/-- Claim C7, amended: each tool instance owns its own
`ThreadPoolExecutor(max_workers=2)`, so concurrency is capped at 2 per tool
instance and at `2 × (number of tool instances)` overall — not by one shared
pool. -/
theorem per_tool_pools_bound_concurrency {n : Nat} (s : PoolSnapshot n)
    (h : poolAdmissible s) :
    (∀ i : Fin n, s.count i ≤ baseToolPoolSize) ∧ s.length ≤ baseToolPoolSize * n :=
  ⟨h, poolAdmissible_length_le h⟩

/-- Claim C7, witness for the amended theorem at a concrete snapshot. -/
theorem per_tool_pools_bound_concurrency_w :
    poolAdmissible c7snapshot ∧ c7snapshot.length ≤ baseToolPoolSize * 2 :=
  ⟨by decide, (per_tool_pools_bound_concurrency c7snapshot (by decide)).2⟩

def c10Args : RunArgs := { code := codeTD, output_format := some "png" }

def c9Args : RunArgs := { code := codeTD, output_format := some "png", title := "a b" }

def d9 : List Nat := [5, 6]

/-- Claim C8, counterexample: the unsupported-format rejection is a failure
result that does not carry the original code — no `fallback_code` (nor any
other code field) is present on that path. -/
theorem unsupported_failure_lacks_code_cex :
    ((runAsync mermaidTool failRender 1 (.noCtx (.ok ())) 0 c8Args []).1.success = false)
    ∧ ((runAsync mermaidTool failRender 1 (.noCtx (.ok ())) 0 c8Args []).1.fallback_code
        = none) := by
  decide

/-- Claim C8, amended: a failure result of `run_async` carries the original
code (as `fallback_code`) exactly when the failure arose at or after the
executor dispatch — render failures, persistence failures and exceptions go
through `_handle_render_error`, which attaches the code; the empty-code and
unsupported-format early rejections do not. -/
theorem failure_fallback_code_iff_sandbox (tool : ToolConfig)
    (render : List Char → String → Nat → Nat → RenderOutcome)
    (duration : Nat) (penv : PersistEnv) (now : Nat) (args : RunArgs) (fs : LocalFS)
    (hfail : (runAsync tool render duration penv now args fs).1.success = false) :
    ((runAsync tool render duration penv now args fs).1.fallback_code = some args.code
      ↔ (runAsync tool render duration penv now args fs).2.1.sandboxInvoked = true) := by
  by_cases h1 : pyStrip args.code = []
  · rw [runAsync_empty tool render duration penv now args fs h1]
    simp
  · by_cases h2 : args.output_format.getD tool.defaultFormat ∈ tool.supportedFormats
    · by_cases h3 : (renderAsync (render args.code
        (args.output_format.getD tool.defaultFormat) args.width args.height)
        duration).1.success = true
      · rw [runAsync_rendered tool render duration penv now args fs h1 h2 h3] at hfail ⊢
        dsimp only at hfail ⊢
        by_cases h4 : (saveRenderedArtifact penv
            (renderAsync (render args.code (args.output_format.getD tool.defaultFormat)
              args.width args.height) duration).1.data
            (args.title ++ usep ++ toString now ++ dotSep
              ++ args.output_format.getD tool.defaultFormat)
            (tool.mime (args.output_format.getD tool.defaultFormat)) fs).1.success = true
        · rw [if_neg (by simp [h4])] at hfail
          simp at hfail
        · rw [if_pos (by simp [h4])]
          simp [handleRenderError]
      · have h3' : (renderAsync (render args.code
            (args.output_format.getD tool.defaultFormat) args.width args.height)
            duration).1.success = false := by
          simpa using h3
        rw [runAsync_render_failed tool render duration penv now args fs h1 h2 h3']
        simp [handleRenderError]
    · rw [runAsync_unsupported tool render duration penv now args fs h1 h2]
      simp

/-- Claim C8, witness at a concrete failing render. -/
theorem failure_fallback_code_iff_sandbox_w :
    ((runAsync mermaidTool failRender 1 (.noCtx (.ok ())) 0 c10Args []).1.success = false)
    ∧ ((runAsync mermaidTool failRender 1 (.noCtx (.ok ())) 0 c10Args []).1.fallback_code
          = some c10Args.code
        ↔ (runAsync mermaidTool failRender 1 (.noCtx (.ok ())) 0 c10Args
            []).2.1.sandboxInvoked = true) :=
  ⟨by decide, failure_fallback_code_iff_sandbox mermaidTool failRender 1
    (.noCtx (.ok ())) 0 c10Args [] (by decide)⟩

/-- Claim C9: persistence strategy is selected solely by the presence of the
`tool_context`. With a context, the bytes go through `save_artifact`, the
result carries the store's version, the raw timestamped filename
`{title}_{time}.{format}` is used and the local filesystem is untouched;
without a context, the bytes are written locally under the sanitised
timestamped name, the result's version is the `"local"` marker, and in both
cases the save step receives the MIME type derived from the format. -/
theorem artifact_persistence_strategy (tool : ToolConfig)
    (render : List Char → String → Nat → Nat → RenderOutcome)
    (duration : Nat) (now : Nat) (args : RunArgs) (fs : LocalFS)
    (h1 : pyStrip args.code ≠ [])
    (h2 : args.output_format.getD tool.defaultFormat ∈ tool.supportedFormats)
    (h3 : (renderAsync (render args.code (args.output_format.getD tool.defaultFormat)
      args.width args.height) duration).1.success = true) :
    (∀ v : Nat,
      ((runAsync tool render duration (.withCtx (.ok v)) now args fs).1.version
        = some (.store v))
      ∧ ((runAsync tool render duration (.withCtx (.ok v)) now args fs).1.filename
        = some (args.title ++ usep ++ toString now ++ dotSep
            ++ args.output_format.getD tool.defaultFormat))
      ∧ ((runAsync tool render duration (.withCtx (.ok v)) now args fs).2.2 = fs)
      ∧ ((runAsync tool render duration (.withCtx (.ok v)) now args fs).2.1.saveMime
        = some (tool.mime (args.output_format.getD tool.defaultFormat)))
      ∧ ((runAsync tool render duration (.withCtx (.ok v)) now args fs).1.success = true))
    ∧ (((runAsync tool render duration (.noCtx (.ok ())) now args fs).1.version
        = some .localFile)
      ∧ ((runAsync tool render duration (.noCtx (.ok ())) now args fs).1.filename
        = some (safeFilename (args.title ++ usep ++ toString now ++ dotSep
            ++ args.output_format.getD tool.defaultFormat)))
      ∧ ((runAsync tool render duration (.noCtx (.ok ())) now args fs).2.2
        = (safeFilename (args.title ++ usep ++ toString now ++ dotSep
            ++ args.output_format.getD tool.defaultFormat),
           (renderAsync (render args.code (args.output_format.getD tool.defaultFormat)
             args.width args.height) duration).1.data) :: fs)
      ∧ ((runAsync tool render duration (.noCtx (.ok ())) now args fs).2.1.saveMime
        = some (tool.mime (args.output_format.getD tool.defaultFormat)))
      ∧ ((runAsync tool render duration (.noCtx (.ok ())) now args fs).1.success
        = true)) := by
  constructor
  · intro v
    have heq := runAsync_rendered tool render duration (.withCtx (.ok v)) now args fs
      h1 h2 h3
    rw [heq]
    simp [saveRenderedArtifact]
  · have heq := runAsync_rendered tool render duration (.noCtx (.ok ())) now args fs
      h1 h2 h3
    rw [heq]
    simp [saveRenderedArtifact]

/-- Claim C9, witness: both strategies exercised at a concrete request whose
title contains a space (so the local-file branch sanitises it). -/
theorem artifact_persistence_strategy_w :
    (pyStrip c9Args.code ≠ [])
    ∧ (c9Args.output_format.getD mermaidTool.defaultFormat ∈ mermaidTool.supportedFormats)
    ∧ ((renderAsync (okRender d9 c9Args.code
        (c9Args.output_format.getD mermaidTool.defaultFormat) c9Args.width c9Args.height)
        1).1.success = true)
    ∧ ((runAsync mermaidTool (okRender d9) 1 (.withCtx (.ok 3)) 0 c9Args []).1.version
        = some (.store 3))
    ∧ ((runAsync mermaidTool (okRender d9) 1 (.noCtx (.ok ())) 0 c9Args []).2.2
        = (safeFilename (c9Args.title ++ usep ++ toString 0 ++ dotSep
            ++ c9Args.output_format.getD mermaidTool.defaultFormat),
           (renderAsync (okRender d9 c9Args.code
             (c9Args.output_format.getD mermaidTool.defaultFormat)
             c9Args.width c9Args.height) 1).1.data) :: []) :=
  ⟨by decide, by decide, by decide,
    ((artifact_persistence_strategy mermaidTool (okRender d9) 1 0 c9Args []
      (by decide) (by decide) (by decide)).1 3).1,
    (artifact_persistence_strategy mermaidTool (okRender d9) 1 0 c9Args []
      (by decide) (by decide) (by decide)).2.2.2.1⟩

/-- Claim C10: whenever the render step comes back unsuccessful (including
the timeout path), `run_async` returns a failure, never invokes
`_save_rendered_artifact`, and leaves the local filesystem untouched — no
artifact is created for a failed render. -/
theorem render_failure_skips_persistence (tool : ToolConfig)
    (render : List Char → String → Nat → Nat → RenderOutcome)
    (duration : Nat) (penv : PersistEnv) (now : Nat) (args : RunArgs) (fs : LocalFS)
    (h : (renderAsync (render args.code (args.output_format.getD tool.defaultFormat)
      args.width args.height) duration).1.success = false) :
    ((runAsync tool render duration penv now args fs).1.success = false)
    ∧ ((runAsync tool render duration penv now args fs).2.1.saveInvoked = false)
    ∧ ((runAsync tool render duration penv now args fs).2.2 = fs) := by
  by_cases h1 : pyStrip args.code = []
  · rw [runAsync_empty tool render duration penv now args fs h1]
    exact ⟨rfl, rfl, rfl⟩
  · by_cases h2 : args.output_format.getD tool.defaultFormat ∈ tool.supportedFormats
    · rw [runAsync_render_failed tool render duration penv now args fs h1 h2 h]
      exact ⟨rfl, rfl, rfl⟩
    · rw [runAsync_unsupported tool render duration penv now args fs h1 h2]
      exact ⟨rfl, rfl, rfl⟩

/-- Claim C10, witness at a concrete failing render. -/
theorem render_failure_skips_persistence_w :
    ((renderAsync (failRender c10Args.code
        (c10Args.output_format.getD mermaidTool.defaultFormat) c10Args.width
        c10Args.height) 1).1.success = false)
    ∧ ((runAsync mermaidTool failRender 1 (.noCtx (.ok ())) 0 c10Args []).2.1.saveInvoked
        = false)
    ∧ ((runAsync mermaidTool failRender 1 (.noCtx (.ok ())) 0 c10Args []).2.2 = []) :=
  ⟨by decide,
    (render_failure_skips_persistence mermaidTool failRender 1 (.noCtx (.ok ())) 0
      c10Args [] (by decide)).2.1,
    (render_failure_skips_persistence mermaidTool failRender 1 (.noCtx (.ok ())) 0
      c10Args [] (by decide)).2.2⟩
